import Mathlib

/-!
Verification of the sils_analyzer route-comparison and outcome-classification
pipeline against its specification.

The Python sources are shallowly embedded: JSON documents become the inductive
type JValue, dictionary traversal becomes structural recursion, and the
imperative loops of the extractor/comparer become list folds. Numeric claims
about the haversine metric are stated over the real numbers.
-/

namespace Sils

/-- A JSON-like value, the shape of the documents the pipeline consumes.
Objects are association lists (Python dicts have unique keys, so first-match
lookup agrees with dict lookup). Numbers are modelled as rationals. -/
inductive JValue where
  | null : JValue
  | bool : Bool → JValue
  | num : ℚ → JValue
  | str : String → JValue
  | arr : List JValue → JValue
  | obj : List (String × JValue) → JValue

mutual

/-- Structural equality on JSON values, the embedding of the Python equality
test the code performs. The only defaults the source compares against are
None, [] and {}, on which Python equality and structural equality agree. -/
def pyEq : JValue → JValue → Bool
  | JValue.null, JValue.null => true
  | JValue.bool a, JValue.bool b => a == b
  | JValue.num a, JValue.num b => a == b
  | JValue.str a, JValue.str b => a == b
  | JValue.arr a, JValue.arr b => pyEqList a b
  | JValue.obj a, JValue.obj b => pyEqFields a b
  | _, _ => false

/-- Elementwise structural equality of JSON arrays. -/
def pyEqList : List JValue → List JValue → Bool
  | [], [] => true
  | x :: xs, y :: ys => pyEq x y && pyEqList xs ys
  | _, _ => false

/-- Entrywise structural equality of JSON objects. -/
def pyEqFields : List (String × JValue) → List (String × JValue) → Bool
  | [], [] => true
  | (k, v) :: xs, (l, w) :: ys => k == l && pyEq v w && pyEqFields xs ys
  | _, _ => false

end

mutual

/-- Structural equality is reflexive. -/
theorem pyEq_refl : ∀ (a : JValue), pyEq a a = true
  | JValue.null => rfl
  | JValue.bool a => by simp [pyEq]
  | JValue.num a => by simp [pyEq]
  | JValue.str a => by simp [pyEq]
  | JValue.arr a => by simpa [pyEq] using pyEqList_refl a
  | JValue.obj a => by simpa [pyEq] using pyEqFields_refl a

/-- Elementwise structural equality is reflexive. -/
theorem pyEqList_refl : ∀ (l : List JValue), pyEqList l l = true
  | [] => rfl
  | x :: xs => by simpa [pyEqList, pyEq_refl x] using pyEqList_refl xs

/-- Entrywise structural equality is reflexive. -/
theorem pyEqFields_refl : ∀ (l : List (String × JValue)), pyEqFields l l = true
  | [] => rfl
  | (k, v) :: xs => by simpa [pyEqFields, pyEq_refl v] using pyEqFields_refl xs

end

/-- Comparison with null succeeds exactly on null. -/
theorem pyEq_null_iff (v : JValue) : pyEq v JValue.null = true ↔ v = JValue.null := by
  cases v <;> simp [pyEq]

/-- Comparison with the empty array succeeds exactly on the empty array. -/
theorem pyEq_arrNil_iff (v : JValue) : pyEq v (JValue.arr []) = true ↔ v = JValue.arr [] := by
  cases v <;> simp [pyEq]
  case arr l => cases l <;> simp [pyEqList]

/-- Python truthiness of a JSON value: None, False, 0, empty string, empty
list and empty dict are falsy, everything else truthy. -/
def truthy : JValue → Bool
  | JValue.null => false
  | JValue.bool b => b
  | JValue.num q => decide (q ≠ 0)
  | JValue.str s => decide (s ≠ "")
  | JValue.arr l => !l.isEmpty
  | JValue.obj l => !l.isEmpty

/-- Embedding of safe_get (route_extracter.py lines 3-14): walk the key chain;
at a non-dict step return the default, otherwise fetch the key with the
default as fallback and return the default as soon as the fetched value
equals it. -/
def safe_get (data : JValue) (keys : List String) (default : JValue) : JValue :=
  match keys with
  | [] => data
  | key :: rest =>
    match data with
    | JValue.obj fields =>
      let v := (fields.lookup key).getD default
      if pyEq v default then default else safe_get v rest default
    | _ => default

/-- Strict traversal used only to state claim C2: follow the key chain,
failing (none) exactly when a step hits a non-mapping value or a missing
key. -/
def strict_get (data : JValue) (keys : List String) : Option JValue :=
  match keys with
  | [] => some data
  | key :: rest =>
    match data with
    | JValue.obj fields =>
      match fields.lookup key with
      | some v => strict_get v rest
      | none => none
    | _ => none

/-- C2: for every document, key path and default, if the strict walk of the
path hits a non-mapping value or a missing key at any depth, safe_get
returns the default, never a part of the document. -/
theorem safe_get_default_of_strict_get_none (data : JValue) (keys : List String)
    (default : JValue) (h : strict_get data keys = none) :
    safe_get data keys default = default := by
  induction keys generalizing data with
  | nil => simp [strict_get] at h
  | cons key rest ih =>
    cases data with
    | obj fields =>
      simp only [strict_get] at h
      simp only [safe_get]
      cases hl : fields.lookup key with
      | none => simp [hl, pyEq_refl]
      | some v =>
        rw [hl] at h
        simp only [hl, Option.getD_some]
        by_cases hv : pyEq v default = true
        · simp [hv]
        · simp [hv, ih v h]
    | null => simp [safe_get]
    | bool b => simp [safe_get]
    | num q => simp [safe_get]
    | str s => simp [safe_get]
    | arr l => simp [safe_get]

/-- Witness for C2 at a concrete document: the path stops at a missing key,
so the default is returned. -/
theorem safe_get_default_witness :
    strict_get (JValue.obj [(("a"), JValue.obj [])]) [("a"), ("b")] = none ∧
    safe_get (JValue.obj [(("a"), JValue.obj [])]) [("a"), ("b")] (JValue.num 7) = JValue.num 7 := by
  refine ⟨by rfl, ?_⟩
  exact safe_get_default_of_strict_get_none _ _ _ (by rfl)

/-- Identity-with-None test of Python. A safe_get with default None returns
None exactly for an absent or null field. -/
def isNull : JValue → Bool
  | JValue.null => true
  | _ => false

/-- Nullity test agrees with propositional equality to null. -/
theorem isNull_iff (v : JValue) : isNull v = true ↔ v = JValue.null := by
  cases v <;> simp [isNull]

/-- Test for being a JSON array, the embedding of isinstance(x, list). -/
def isArr : JValue → Bool
  | JValue.arr _ => true
  | _ => false

/-- The event list every extractor starts from: the value at
cagaData.eventData if it is a list (extractors guard with isinstance),
and the empty list otherwise. -/
def eventsOf (data : JValue) : List JValue :=
  match safe_get data ["cagaData", "eventData"] (JValue.arr []) with
  | JValue.arr event_data => event_data
  | _ => []

/-- Route field of one event, as the extractor reads it
(safe_path_info.route with default None). -/
def routeOf (event : JValue) : JValue :=
  safe_get event ["safe_path_info", "route"] JValue.null

/-- Embedding of RouteExtractor.extract_safe_path_at_event
(route_extracter.py lines 54-67): collect safe_path_info.route of each
event, appending only the routes that are not None. -/
def extract_safe_path_at_event (data : JValue) : List JValue :=
  match safe_get data ["cagaData", "eventData"] (JValue.arr []) with
  | JValue.arr event_data =>
    event_data.foldl
      (fun routes event =>
        if isNull (routeOf event) then routes else routes ++ [routeOf event])
      []
  | _ => []

/-- The caPathGenFail field of one event, default None. -/
def caPathGenFailOf (event : JValue) : JValue :=
  safe_get event ["caPathGenFail"] JValue.null

/-- The isNearTarget field of one event, default None. -/
def isNearTargetOf (event : JValue) : JValue :=
  safe_get event ["isNearTarget"] JValue.null

/-- Embedding of RouteExtractor.extract_extract_evaluate_data
(route_extracter.py lines 115-128): walk the events and append the pair of
flags only when caPathGenFail and isNearTarget are both not None. -/
def extract_extract_evaluate_data (data : JValue) : List JValue × List JValue :=
  match safe_get data ["cagaData", "eventData"] (JValue.arr []) with
  | JValue.arr event_data =>
    event_data.foldl
      (fun acc event =>
        if !(isNull (caPathGenFailOf event)) && !(isNull (isNearTargetOf event)) then
          (acc.1 ++ [caPathGenFailOf event], acc.2 ++ [isNearTargetOf event])
        else acc)
      ([], [])
  | _ => ([], [])

mutual

/-- Embedding of RouteExtractor.flatten (route_extracter.py lines 41-52):
recursively expand nested lists; a non-list becomes a one-element list. -/
def flatten : JValue → List JValue
  | JValue.arr xs => flattenList xs
  | JValue.null => [JValue.null]
  | JValue.bool b => [JValue.bool b]
  | JValue.num q => [JValue.num q]
  | JValue.str s => [JValue.str s]
  | JValue.obj fs => [JValue.obj fs]

/-- Concatenation of the flattenings of the elements of a list, the body of
the loop inside flatten. -/
def flattenList : List JValue → List JValue
  | [] => []
  | x :: xs => flatten x ++ flattenList xs

end

mutual

/-- No element of a flattening is itself a list. -/
theorem flatten_not_arr : ∀ (x y : JValue), y ∈ flatten x → isArr y = false
  | JValue.arr xs, y, hy => flattenList_not_arr xs y (by simpa [flatten] using hy)
  | JValue.null, y, hy => by
      simp only [flatten, List.mem_singleton] at hy; subst hy; rfl
  | JValue.bool b, y, hy => by
      simp only [flatten, List.mem_singleton] at hy; subst hy; rfl
  | JValue.num q, y, hy => by
      simp only [flatten, List.mem_singleton] at hy; subst hy; rfl
  | JValue.str s, y, hy => by
      simp only [flatten, List.mem_singleton] at hy; subst hy; rfl
  | JValue.obj fs, y, hy => by
      simp only [flatten, List.mem_singleton] at hy; subst hy; rfl

/-- No element of the flattening of a list is itself a list. -/
theorem flattenList_not_arr : ∀ (l : List JValue) (y : JValue),
    y ∈ flattenList l → isArr y = false
  | x :: xs, y, hy => by
      rcases List.mem_append.mp (by simpa [flattenList] using hy) with h | h
      · exact flatten_not_arr x y h
      · exact flattenList_not_arr xs y h

end

/-- Flattening a list that contains no nested list gives the list back. -/
theorem flattenList_eq_self_of_not_arr (l : List JValue)
    (h : ∀ y ∈ l, isArr y = false) : flattenList l = l := by
  induction l with
  | nil => rfl
  | cons x xs ih =>
    have hx : isArr x = false := h x (List.mem_cons_self x xs)
    have hflat : flatten x = [x] := by cases x <;> simp_all [flatten, isArr]
    simp [flattenList, hflat, ih (fun y hy => h y (List.mem_cons_of_mem x hy))]

/-- C7: flatten is idempotent (feeding the flattened list back in returns it
unchanged) and flatten of a non-list is the one-element list holding it. -/
theorem flatten_idempotent (x : JValue) :
    flatten (JValue.arr (flatten x)) = flatten x ∧
    (isArr x = false → flatten x = [x]) := by
  constructor
  · show flattenList (flatten x) = flatten x
    exact flattenList_eq_self_of_not_arr _ (flatten_not_arr x)
  · intro hx
    cases x <;> simp_all [flatten, isArr]

/-- Witness for C7 at a concrete non-list input. -/
theorem flatten_idempotent_witness :
    flatten (JValue.arr (flatten (JValue.num 3))) = flatten (JValue.num 3) ∧
    flatten (JValue.num 3) = [JValue.num 3] :=
  ⟨(flatten_idempotent (JValue.num 3)).1, (flatten_idempotent (JValue.num 3)).2 rfl⟩

/-- The joint keep-condition of extract_extract_evaluate_data: both flags of
the event are not None. -/
def bothFlagsPresent (event : JValue) : Bool :=
  !(isNull (caPathGenFailOf event)) && !(isNull (isNearTargetOf event))

/-- Unrolling of the flag-collecting fold of extract_extract_evaluate_data. -/
theorem evaluate_foldl_spec (events : List JValue) (acc : List JValue × List JValue) :
    events.foldl
      (fun acc event =>
        if !(isNull (caPathGenFailOf event)) && !(isNull (isNearTargetOf event)) then
          (acc.1 ++ [caPathGenFailOf event], acc.2 ++ [isNearTargetOf event])
        else acc)
      acc =
    (acc.1 ++ (events.filter bothFlagsPresent).map caPathGenFailOf,
     acc.2 ++ (events.filter bothFlagsPresent).map isNearTargetOf) := by
  induction events generalizing acc with
  | nil => simp
  | cons e es ih =>
    simp only [List.foldl_cons]
    by_cases h : (!(isNull (caPathGenFailOf e)) && !(isNull (isNearTargetOf e))) = true
    · rw [if_pos h, ih]
      have hf : List.filter bothFlagsPresent (e :: es) =
          e :: List.filter bothFlagsPresent es := by
        simp [List.filter_cons, bothFlagsPresent, h]
      rw [hf]
      simp
    · rw [if_neg h, ih]
      have hf : List.filter bothFlagsPresent (e :: es) =
          List.filter bothFlagsPresent es := by
        simp only [Bool.not_eq_true] at h
        simp [List.filter_cons, bothFlagsPresent, h]
      rw [hf]

/-- C3 (amended): the two flag lists returned by
extract_extract_evaluate_data are the caPathGenFail respectively
isNearTarget values of exactly those events where both flags are non-null;
an event with a non-null caPathGenFail but a null isNearTarget (or the other
way round) is dropped from both lists, so the two fields are not extracted
independently. -/
theorem extract_evaluate_joint_filter (data : JValue) :
    (extract_extract_evaluate_data data).1 =
      ((eventsOf data).filter bothFlagsPresent).map caPathGenFailOf ∧
    (extract_extract_evaluate_data data).2 =
      ((eventsOf data).filter bothFlagsPresent).map isNearTargetOf := by
  cases hsg : safe_get data ["cagaData", "eventData"] (JValue.arr []) with
  | arr l =>
    have h := evaluate_foldl_spec l ([], [])
    simp only [extract_extract_evaluate_data, eventsOf, hsg, h]
    simp
  | null => simp [extract_extract_evaluate_data, eventsOf, hsg]
  | bool b => simp [extract_extract_evaluate_data, eventsOf, hsg]
  | num q => simp [extract_extract_evaluate_data, eventsOf, hsg]
  | str s => simp [extract_extract_evaluate_data, eventsOf, hsg]
  | obj fs => simp [extract_extract_evaluate_data, eventsOf, hsg]

/-- Event with a caPathGenFail flag but no isNearTarget field. -/
def evLonePathGen : JValue := JValue.obj [("caPathGenFail", JValue.bool false)]

/-- Document whose single event carries only the caPathGenFail flag. -/
def docLonePathGen : JValue :=
  JValue.obj [("cagaData", JValue.obj [("eventData", JValue.arr [evLonePathGen])])]

/-- C3 counterexample: the single event has a non-null caPathGenFail, yet the
flag list produced by extract_extract_evaluate_data is empty, because the
event's isNearTarget is null — one field's absence does drop the sibling. -/
theorem extract_evaluate_drops_lone_flag :
    eventsOf docLonePathGen = [evLonePathGen] ∧
    caPathGenFailOf evLonePathGen = JValue.bool false ∧
    isNull (caPathGenFailOf evLonePathGen) = false ∧
    (extract_extract_evaluate_data docLonePathGen).1 = [] :=
  ⟨rfl, rfl, rfl, rfl⟩

/-- Unrolling of the route-collecting fold of extract_safe_path_at_event. -/
theorem safe_path_foldl_spec (events : List JValue) (acc : List JValue) :
    events.foldl
      (fun routes event =>
        if isNull (routeOf event) then routes else routes ++ [routeOf event])
      acc =
    acc ++ (events.map routeOf).filter (fun r => !(isNull r)) := by
  induction events generalizing acc with
  | nil => simp
  | cons e es ih =>
    simp only [List.foldl_cons, List.map_cons, List.filter_cons]
    by_cases h : isNull (routeOf e) = true
    · simp [h, ih]
    · simp [h, ih]

/-- C4 (amended): the safe-path list handed to the comparer is the ordered
subsequence of the per-event route values restricted to the non-null ones:
events are never reordered or deduplicated, but an event whose route is
absent is skipped, so it does shift the comparison indices of later
events. -/
theorem safe_paths_nonnull_subsequence (data : JValue) :
    extract_safe_path_at_event data =
      ((eventsOf data).map routeOf).filter (fun r => !(isNull r)) ∧
    List.Sublist (extract_safe_path_at_event data) ((eventsOf data).map routeOf) := by
  have key : extract_safe_path_at_event data =
      ((eventsOf data).map routeOf).filter (fun r => !(isNull r)) := by
    cases hsg : safe_get data ["cagaData", "eventData"] (JValue.arr []) with
    | arr l =>
      simp only [extract_safe_path_at_event, eventsOf, hsg]
      simp [safe_path_foldl_spec l []]
    | null => simp [extract_safe_path_at_event, eventsOf, hsg]
    | bool b => simp [extract_safe_path_at_event, eventsOf, hsg]
    | num q => simp [extract_safe_path_at_event, eventsOf, hsg]
    | str s => simp [extract_safe_path_at_event, eventsOf, hsg]
    | obj fs => simp [extract_safe_path_at_event, eventsOf, hsg]
  exact ⟨key, key ▸ List.filter_sublist _⟩

/-- A one-waypoint route used by the concrete C4 scenario. -/
def routeB : JValue :=
  JValue.arr [JValue.obj [("position",
    JValue.obj [("latitude", JValue.num 1), ("longitude", JValue.num 2)])]]

/-- Event without a safe route. -/
def evNoRoute : JValue := JValue.obj [("time", JValue.num 0)]

/-- Event whose safe route is routeB. -/
def evWithRoute : JValue :=
  JValue.obj [("safe_path_info", JValue.obj [("route", routeB)])]

/-- Document whose event 0 has no route and whose event 1 has routeB. -/
def docSkipRoute : JValue :=
  JValue.obj [("cagaData", JValue.obj [("eventData",
    JValue.arr [evNoRoute, evWithRoute])])]

/-- C4 counterexample: event 0 has no route, so the route found at
comparison index 0 is the route of event 1 — skipping an event with an
absent route shifts the comparison indices of later events. -/
theorem route_skip_shifts_indices :
    eventsOf docSkipRoute = [evNoRoute, evWithRoute] ∧
    routeOf evNoRoute = JValue.null ∧
    routeOf evWithRoute = routeB ∧
    (extract_safe_path_at_event docSkipRoute)[0]? = some routeB ∧
    (extract_safe_path_at_event docSkipRoute).length = 1 :=
  ⟨rfl, rfl, rfl, rfl, rfl⟩

/-- Loop condition of the route lookback at one index: the index is in range
and the stored route is truthy (for routes: a non-empty list). -/
def routeAvailable (safe_paths : List JValue) (idx : ℕ) : Bool :=
  decide (idx < safe_paths.length) && truthy (safe_paths.getD idx JValue.null)

/-- Embedding of RoutePlotter.get_safe_path (route_plotter.py lines 23-33):
return the route at idx when it is in range and truthy, otherwise decrement
the index down to 0; None when no index qualifies. -/
def get_safe_path (safe_paths : List JValue) : ℕ → Option JValue
  | 0 =>
    if routeAvailable safe_paths 0 then some (safe_paths.getD 0 JValue.null)
    else none
  | n + 1 =>
    if routeAvailable safe_paths (n + 1) then some (safe_paths.getD (n + 1) JValue.null)
    else get_safe_path safe_paths n

/-- C8: the lookback helper returns the route at idx when it is present and
non-empty; otherwise the route at the greatest index below idx whose route
is present and non-empty; and None when no index from idx down to 0 has
one. -/
theorem get_safe_path_lookback (sp : List JValue) (idx : ℕ) :
    (routeAvailable sp idx = true → get_safe_path sp idx = some (sp.getD idx JValue.null)) ∧
    get_safe_path sp idx =
      (if ((List.range (idx + 1)).any fun j => routeAvailable sp j) = true then
        some (sp.getD (Nat.findGreatest (fun j => routeAvailable sp j = true) idx) JValue.null)
      else none) := by
  constructor
  · intro h
    cases idx with
    | zero => simp [get_safe_path, h]
    | succ n => simp [get_safe_path, h]
  · induction idx with
    | zero =>
      by_cases h : routeAvailable sp 0 = true
      · simp [get_safe_path, h, Nat.findGreatest]
      · simp [get_safe_path, h]
    | succ n ih =>
      rw [get_safe_path]
      by_cases h : routeAvailable sp (n + 1) = true
      · rw [if_pos h]
        have hany : ((List.range (n + 2)).any fun j => routeAvailable sp j) = true := by
          refine List.any_eq_true.mpr ⟨n + 1, ?_, h⟩
          simp [List.mem_range]
        rw [if_pos hany, Nat.findGreatest_succ, if_pos h]
      · rw [if_neg h, ih]
        have h0 : routeAvailable sp (n + 1) = false := by
          simpa using h
        have hany : ((List.range (n + 2)).any fun j => routeAvailable sp j) =
            ((List.range (n + 1)).any fun j => routeAvailable sp j) := by
          simp [List.range_succ, List.any_append, h0]
        rw [hany, Nat.findGreatest_succ, if_neg h]

/-- A non-empty one-point route used by the C8 witness. -/
def routeA : JValue := JValue.arr [JValue.num 1]

/-- Witness for C8 on the specification's own example: with routes
[routeA, empty, empty] a lookup at index 2 falls back to routeA, a lookup at
index 0 of an empty route gives None, and a lookup that hits a non-empty
route at its own index returns it. -/
theorem get_safe_path_lookback_witness :
    get_safe_path [routeA, JValue.arr [], JValue.arr []] 2 = some routeA ∧
    get_safe_path [JValue.arr []] 0 = none ∧
    get_safe_path [routeA] 0 = some routeA := by
  refine ⟨?_, ?_, (get_safe_path_lookback [routeA] 0).1 (by rfl)⟩
  · rw [(get_safe_path_lookback [routeA, JValue.arr [], JValue.arr []] 2).2]
    rfl
  · rw [(get_safe_path_lookback [JValue.arr []] 0).2]
    rfl

/-- Outcome of one dataset under the classification policy. -/
inductive Outcome where
  | Success : Outcome
  | Fail : Outcome
  | NA : Outcome
deriving DecidableEq

/-- Sub-sequence of the non-null flags across the events, the first step of
the classification policy. -/
def nonNullFlags (flags : List (Option Bool)) : List Bool :=
  flags.filterMap id

/-- Modelled from the spec: the Success/Fail/NA outcome classifier of
section 4.4. Its implementation is not among the provided source files —
maritimeschema_analyzer.py only aggregates the raw booleans — so the policy
is taken verbatim from the spec: drop null flags; no flag left gives NA; a
single flag gives NA when true and Success when false; two or more flags
give Success when all are false and Fail otherwise. -/
def classify (flags : List (Option Bool)) : Outcome :=
  match nonNullFlags flags with
  | [] => Outcome.NA
  | [b] => if b then Outcome.NA else Outcome.Success
  | b1 :: b2 :: rest =>
    if (b1 :: b2 :: rest).all (fun b => b == false) then Outcome.Success
    else Outcome.Fail

/-- C1: the classifier drops null flags, maps the empty sub-sequence to NA,
a lone true to NA (not Fail), a lone false to Success, and with two or more
flags gives Success exactly when all are false and Fail when any is true. -/
theorem classify_policy (flags : List (Option Bool)) :
    (nonNullFlags flags = [] → classify flags = Outcome.NA) ∧
    (nonNullFlags flags = [true] → classify flags = Outcome.NA) ∧
    (nonNullFlags flags = [false] → classify flags = Outcome.Success) ∧
    (2 ≤ (nonNullFlags flags).length →
      ((∀ b ∈ nonNullFlags flags, b = false) → classify flags = Outcome.Success) ∧
      ((∃ b ∈ nonNullFlags flags, b = true) → classify flags = Outcome.Fail)) := by
  rcases hg : nonNullFlags flags with _ | ⟨b1, _ | ⟨b2, rest⟩⟩
  · simp [classify, hg]
  · refine ⟨by simp, ?_, ?_, by simp⟩
    · intro h
      rw [List.cons_eq_cons] at h
      simp [classify, hg, h.1]
    · intro h
      rw [List.cons_eq_cons] at h
      simp [classify, hg, h.1]
  · refine ⟨by simp, by simp, by simp, fun _ => ⟨?_, ?_⟩⟩
    · intro h
      have hall : ((b1 :: b2 :: rest).all fun b => b == false) = true :=
        List.all_eq_true.mpr (fun b hb => by simpa using h b hb)
      have hcl : classify flags =
          if ((b1 :: b2 :: rest).all fun b => b == false) = true then Outcome.Success
          else Outcome.Fail := by
        unfold classify
        rw [hg]
      rw [hcl, if_pos hall]
    · rintro ⟨b, hb, htrue⟩
      have hall : ¬(((b1 :: b2 :: rest).all fun b => b == false) = true) := by
        intro hcontra
        have hfalse := List.all_eq_true.mp hcontra b hb
        simp [htrue] at hfalse
      have hcl : classify flags =
          if ((b1 :: b2 :: rest).all fun b => b == false) = true then Outcome.Success
          else Outcome.Fail := by
        unfold classify
        rw [hg]
      rw [hcl, if_neg hall]

/-- Witness for C1 on the specification's own test vector: a lone true flag
gives NA, a lone false gives Success, two flags with a true give Fail, and
an all-null list gives NA. -/
theorem classify_policy_witness :
    classify [some true] = Outcome.NA ∧
    classify [some false] = Outcome.Success ∧
    classify [some false, some true] = Outcome.Fail ∧
    classify [none, none] = Outcome.NA := by
  refine ⟨(classify_policy [some true]).2.1 (by rfl),
    (classify_policy [some false]).2.2.1 (by rfl),
    ((classify_policy [some false, some true]).2.2.2 (by decide)).2 ?_,
    (classify_policy [none, none]).1 (by rfl)⟩
  exact ⟨true, by decide, rfl⟩

/-- Degrees to radians, the embedding of math.radians. -/
noncomputable def radians (deg : ℝ) : ℝ := deg * (Real.pi / 180)

/-- Two-argument arctangent, the embedding of math.atan2: the angle of the
point (x, y), realized as the complex argument of x + y i, which matches the
quadrant convention of atan2. -/
noncomputable def atan2 (y x : ℝ) : ℝ := Complex.arg ⟨x, y⟩

/-- The angle returned by atan2 is nonnegative whenever y is. -/
theorem atan2_nonneg (y x : ℝ) (h : 0 ≤ y) : 0 ≤ atan2 y x :=
  Complex.arg_nonneg_iff.mpr h

/-- Embedding of RouteComparer.haversine (route_result_analyzer.py lines
18-29): great-circle distance in meters on an Earth of radius 6371000 m. -/
noncomputable def haversine (lat1 lon1 lat2 lon2 : ℝ) : ℝ :=
  let R : ℝ := 6371000
  let phi1 := radians lat1
  let phi2 := radians lat2
  let dphi := radians (lat2 - lat1)
  let dlambda := radians (lon2 - lon1)
  let a := Real.sin (dphi / 2) ^ 2 +
    Real.cos phi1 * Real.cos phi2 * Real.sin (dlambda / 2) ^ 2
  let c := 2 * atan2 (Real.sqrt a) (Real.sqrt (1 - a))
  R * c

/-- The haversine distance is never negative. -/
theorem haversine_nonneg (lat1 lon1 lat2 lon2 : ℝ) :
    0 ≤ haversine lat1 lon1 lat2 lon2 := by
  simp only [haversine]
  have harg := atan2_nonneg
    (Real.sqrt (Real.sin (radians (lat2 - lat1) / 2) ^ 2 +
      Real.cos (radians lat1) * Real.cos (radians lat2) *
      Real.sin (radians (lon2 - lon1) / 2) ^ 2))
    (Real.sqrt (1 - (Real.sin (radians (lat2 - lat1) / 2) ^ 2 +
      Real.cos (radians lat1) * Real.cos (radians lat2) *
      Real.sin (radians (lon2 - lon1) / 2) ^ 2)))
    (Real.sqrt_nonneg _)
  have h2 : (0 : ℝ) ≤ 2 := by norm_num
  have hR : (0 : ℝ) ≤ 6371000 := by norm_num
  exact mul_nonneg hR (mul_nonneg h2 harg)

/-- Geographic position of a waypoint. -/
structure Position where
  latitude : ℝ
  longitude : ℝ

/-- A waypoint of a route; the comparer reads only its position. -/
structure Waypoint where
  position : Position

/-- A safe route, the ordered list of its waypoints. -/
abbrev Route := List Waypoint

/-- Distance between the waypoints at index j of the two routes, the body of
the inner loop of compare_routes. -/
noncomputable def waypointError (route_sils route_isils : Route) (j : ℕ) : ℝ :=
  let w1 := route_sils.getD j ⟨⟨0, 0⟩⟩
  let w2 := route_isils.getD j ⟨⟨0, 0⟩⟩
  haversine w1.position.latitude w1.position.longitude
    w2.position.latitude w2.position.longitude

/-- The distance of a compared waypoint pair is never negative. -/
theorem waypointError_nonneg (rs ri : Route) (j : ℕ) : 0 ≤ waypointError rs ri j :=
  haversine_nonneg _ _ _ _

/-- Result row of compare_routes for one compared route index. -/
structure RouteCompResult where
  route_index : ℕ
  waypoint_count_sils : ℕ
  waypoint_count_isils : ℕ
  max_error_m : ℝ
  sum_error_m : ℝ

/-- Embedding of RouteComparer.compare_routes (route_result_analyzer.py
lines 31-61): walk the first min(len, len) route indices; for each,
accumulate the sum and the running maximum (both starting at 0.0) of the
distances of the first min(len, len) waypoint pairs. -/
noncomputable def compare_routes (sils_safe_paths isils_safe_paths : List Route) :
    List RouteCompResult :=
  (List.range (min sils_safe_paths.length isils_safe_paths.length)).map (fun i =>
    let route_sils := sils_safe_paths.getD i []
    let route_isils := isils_safe_paths.getD i []
    let n := min route_sils.length route_isils.length
    let acc := (List.range n).foldl
      (fun acc j =>
        let d := waypointError route_sils route_isils j
        (acc.1 + d, if acc.2 < d then d else acc.2))
      (0, 0)
    { route_index := i
      waypoint_count_sils := route_sils.length
      waypoint_count_isils := route_isils.length
      max_error_m := acc.2
      sum_error_m := acc.1 })

/-- The distances of the compared waypoint pairs of two routes, one entry
per index below the smaller waypoint count. -/
noncomputable def pairDists (route_sils route_isils : Route) : List ℝ :=
  (List.range (min route_sils.length route_isils.length)).map
    (waypointError route_sils route_isils)

/-- The running if-maximum of the loop agrees with max. -/
theorem ite_lt_eq_max (m d : ℝ) : (if m < d then d else m) = max m d := by
  rcases le_or_lt d m with h | h
  · rw [if_neg (not_lt.mpr h), max_eq_left h]
  · rw [if_pos h, max_eq_right h.le]

/-- The sum-and-maximum accumulating fold computed over any list of
distances equals the pair of the plain sum and the plain max fold. -/
theorem errors_foldl_spec (l : List ℝ) (s m : ℝ) :
    l.foldl (fun acc d => (acc.1 + d, if acc.2 < d then d else acc.2)) (s, m) =
      (s + l.sum, l.foldl max m) := by
  induction l generalizing s m with
  | nil => simp
  | cons d ds ih =>
    simp only [List.foldl_cons, List.sum_cons]
    rw [ih, ite_lt_eq_max, add_assoc]

/-- The inner loop of compare_routes computes the sum and the max fold of
the pair distances. -/
theorem route_errors_spec (rs ri : Route) :
    (List.range (min rs.length ri.length)).foldl
      (fun acc j =>
        (acc.1 + waypointError rs ri j,
          if acc.2 < waypointError rs ri j then waypointError rs ri j else acc.2))
      (0, 0) =
    ((pairDists rs ri).sum, (pairDists rs ri).foldl max 0) := by
  have h := errors_foldl_spec
    ((List.range (min rs.length ri.length)).map (waypointError rs ri)) 0 0
  rw [List.foldl_map] at h
  simpa [pairDists] using h

/-- Element-level characterization of compare_routes, shared by the count
and bound theorems. -/
theorem compare_routes_getElem (s t : List Route) (i : ℕ) :
    (compare_routes s t)[i]? =
      (if i < min s.length t.length then
        some { route_index := i
               waypoint_count_sils := (s.getD i []).length
               waypoint_count_isils := (t.getD i []).length
               max_error_m := (pairDists (s.getD i []) (t.getD i [])).foldl max 0
               sum_error_m := (pairDists (s.getD i []) (t.getD i [])).sum }
      else none) := by
  by_cases h : i < min s.length t.length
  · rw [if_pos h]
    simp only [compare_routes, List.getElem?_map, List.getElem?_range h, Option.map_some']
    rw [route_errors_spec]
  · rw [if_neg h]
    simp only [compare_routes, List.getElem?_map]
    rw [List.getElem?_eq_none (by simpa using not_lt.mp h)]
    rfl

/-- The number of result rows of compare_routes. -/
theorem compare_routes_length (s t : List Route) :
    (compare_routes s t).length = min s.length t.length := by
  simp [compare_routes]

/-- The fold of max only grows from its seed. -/
theorem le_foldl_max (l : List ℝ) (m : ℝ) : m ≤ l.foldl max m := by
  induction l generalizing m with
  | nil => exact le_refl m
  | cons d ds ih => exact le_trans (le_max_left m d) (ih (max m d))

/-- Every member of a list is bounded by the fold of max over it. -/
theorem le_foldl_max_of_mem (l : List ℝ) (d : ℝ) (hd : d ∈ l) (m : ℝ) :
    d ≤ l.foldl max m := by
  induction l generalizing m with
  | nil => cases hd
  | cons x xs ih =>
    rcases List.mem_cons.mp hd with h | h
    · subst h
      exact le_trans (le_max_right m d) (le_foldl_max xs (max m d))
    · exact ih h (max m x)

/-- The fold of max over a list is its seed or one of its members. -/
theorem foldl_max_mem (l : List ℝ) (m : ℝ) :
    l.foldl max m = m ∨ l.foldl max m ∈ l := by
  induction l generalizing m with
  | nil => exact Or.inl rfl
  | cons x xs ih =>
    rcases ih (max m x) with h | h
    · rcases max_choice m x with hm | hm
      · exact Or.inl (by rw [List.foldl_cons, h, hm])
      · refine Or.inr ?_
        rw [List.foldl_cons, h, hm]
        exact List.mem_cons_self x xs
    · exact Or.inr (List.mem_cons_of_mem x (by simpa using h))

/-- C5: compare_routes yields exactly min(len, len) results, ignoring the
longer side; the result at index i reports both waypoint counts, the
maximum (an upper bound that is attained or 0) and the sum of the distances
of the min(count, count) compared waypoint pairs; and when no pair is
compared both errors are 0. -/
theorem compare_routes_spec (s t : List Route) (i : ℕ) :
    (compare_routes s t).length = min s.length t.length ∧
    (compare_routes s t)[i]? =
      (if i < min s.length t.length then
        some { route_index := i
               waypoint_count_sils := (s.getD i []).length
               waypoint_count_isils := (t.getD i []).length
               max_error_m := (pairDists (s.getD i []) (t.getD i [])).foldl max 0
               sum_error_m := (pairDists (s.getD i []) (t.getD i [])).sum }
      else none) ∧
    (∀ r, (compare_routes s t)[i]? = some r →
      min (s.getD i []).length (t.getD i []).length = 0 →
      r.max_error_m = 0 ∧ r.sum_error_m = 0) ∧
    (∀ r, (compare_routes s t)[i]? = some r →
      (∀ d ∈ pairDists (s.getD i []) (t.getD i []), d ≤ r.max_error_m) ∧
      (r.max_error_m = 0 ∨ r.max_error_m ∈ pairDists (s.getD i []) (t.getD i []))) := by
  refine ⟨compare_routes_length s t, compare_routes_getElem s t i, ?_, ?_⟩
  · intro r hr hmin
    rw [compare_routes_getElem s t i] at hr
    by_cases h : i < min s.length t.length
    · rw [if_pos h] at hr
      have hpd : pairDists (s.getD i []) (t.getD i []) = [] := by
        unfold pairDists
        rw [hmin]
        rfl
      have h1 : (pairDists (s.getD i []) (t.getD i [])).foldl max 0 = 0 := by
        rw [hpd]
        rfl
      have h2 : (pairDists (s.getD i []) (t.getD i [])).sum = 0 := by
        rw [hpd]
        rfl
      have hre := Option.some.inj hr
      subst hre
      exact ⟨h1, h2⟩
    · rw [if_neg h] at hr
      exact absurd hr (by simp)
  · intro r hr
    rw [compare_routes_getElem s t i] at hr
    by_cases h : i < min s.length t.length
    · rw [if_pos h] at hr
      have hre := Option.some.inj hr
      subst hre
      exact ⟨fun d hd => le_foldl_max_of_mem _ d hd 0,
        foldl_max_mem (pairDists (s.getD i []) (t.getD i [])) 0⟩
    · rw [if_neg h] at hr
      exact absurd hr (by simp)

/-- Witness for C5: on singleton lists of empty routes exactly one result is
produced and both error fields of that result are 0. -/
theorem compare_routes_spec_witness :
    (compare_routes [[]] [[]]).length = 1 ∧
    (RouteCompResult.mk 0 0 0 0 0).max_error_m = 0 ∧
    (RouteCompResult.mk 0 0 0 0 0).sum_error_m = 0 ∧
    ((RouteCompResult.mk 0 0 0 0 0).max_error_m = 0 ∨
      (RouteCompResult.mk 0 0 0 0 0).max_error_m ∈ pairDists ([] : Route) []) := by
  refine ⟨(compare_routes_spec [[]] [[]] 0).1, ?_, ?_, ?_⟩
  · exact ((compare_routes_spec [[]] [[]] 0).2.2.1 (RouteCompResult.mk 0 0 0 0 0)
      (by rw [(compare_routes_spec [[]] [[]] 0).2.1]; rfl) rfl).1
  · exact ((compare_routes_spec [[]] [[]] 0).2.2.1 (RouteCompResult.mk 0 0 0 0 0)
      (by rw [(compare_routes_spec [[]] [[]] 0).2.1]; rfl) rfl).2
  · exact ((compare_routes_spec [[]] [[]] 0).2.2.2 (RouteCompResult.mk 0 0 0 0 0)
      (by rw [(compare_routes_spec [[]] [[]] 0).2.1]; rfl)).2

/-- Over nonnegative entries the fold of max stays below seed plus sum. -/
theorem foldl_max_le_add_sum (l : List ℝ) (h : ∀ d ∈ l, 0 ≤ d) (m : ℝ)
    (hm : 0 ≤ m) : l.foldl max m ≤ m + l.sum := by
  induction l generalizing m with
  | nil => simp
  | cons d ds ih =>
    have hd : 0 ≤ d := h d (List.mem_cons_self d ds)
    have hds : ∀ x ∈ ds, 0 ≤ x := fun x hx => h x (List.mem_cons_of_mem d hx)
    have h1 : ds.foldl max (max m d) ≤ max m d + ds.sum :=
      ih hds (max m d) (le_trans hd (le_max_right m d))
    have h2 : max m d ≤ m + d :=
      max_le (le_add_of_nonneg_right hd) (le_add_of_nonneg_left hm)
    calc (d :: ds).foldl max m = ds.foldl max (max m d) := by
          simp [List.foldl_cons]
      _ ≤ max m d + ds.sum := h1
      _ ≤ m + d + ds.sum := by linarith
      _ = m + (d :: ds).sum := by rw [List.sum_cons]; ring

/-- Every compared pair distance is nonnegative. -/
theorem pairDists_nonneg (rs ri : Route) : ∀ d ∈ pairDists rs ri, 0 ≤ d := by
  intro d hd
  rcases List.mem_map.mp hd with ⟨j, hj, hdj⟩
  rw [← hdj]
  exact waypointError_nonneg rs ri j

/-- C10: in every result of compare_routes the max error and the sum error
are nonnegative and the max error never exceeds the sum error. -/
theorem compare_routes_errors_bounds (s t : List Route) (r : RouteCompResult)
    (hr : r ∈ compare_routes s t) :
    0 ≤ r.max_error_m ∧ 0 ≤ r.sum_error_m ∧ r.max_error_m ≤ r.sum_error_m := by
  rcases List.mem_iff_getElem?.mp hr with ⟨i, hi⟩
  rw [compare_routes_getElem s t i] at hi
  by_cases h : i < min s.length t.length
  · rw [if_pos h] at hi
    have hre := Option.some.inj hi
    have hnn : ∀ d ∈ pairDists (s.getD i []) (t.getD i []), 0 ≤ d := pairDists_nonneg _ _
    have hmax : 0 ≤ (pairDists (s.getD i []) (t.getD i [])).foldl max 0 :=
      le_foldl_max _ 0
    have hsum : 0 ≤ (pairDists (s.getD i []) (t.getD i [])).sum := List.sum_nonneg hnn
    have hle : (pairDists (s.getD i []) (t.getD i [])).foldl max 0 ≤
        (pairDists (s.getD i []) (t.getD i [])).sum := by
      have := foldl_max_le_add_sum _ hnn 0 (le_refl 0)
      linarith
    subst hre
    exact ⟨hmax, hsum, hle⟩
  · rw [if_neg h] at hi
    exact absurd hi (by simp)

/-- Witness for C10 at a concrete comparison producing one result row. -/
theorem compare_routes_errors_bounds_witness :
    0 ≤ (RouteCompResult.mk 0 0 0 0 0).max_error_m ∧
    0 ≤ (RouteCompResult.mk 0 0 0 0 0).sum_error_m ∧
    (RouteCompResult.mk 0 0 0 0 0).max_error_m ≤
      (RouteCompResult.mk 0 0 0 0 0).sum_error_m :=
  compare_routes_errors_bounds [[]] [[]] (RouteCompResult.mk 0 0 0 0 0)
    (by rw [List.mem_iff_getElem?]
        exact ⟨0, by rw [compare_routes_getElem [[]] [[]] 0]; rfl⟩)

/-- Attribute names that RouteExtractor.__init__ assigns to the instance
(route_extracter.py lines 20-36). RouteComparer.__init__ only calls this
inherited constructor (route_result_analyzer.py lines 15-16), so these are
all the attributes a RouteComparer instance ever has. -/
def routeExtractorAttrNames : List String :=
  ["base_route", "sils_safe_paths", "isils_safe_paths",
   "sils_target_ships_event_info", "isils_target_ships_event_info",
   "sils_own_ship_event_info", "isils_own_ship_event_info",
   "sils_own_ship_info", "isils_own_ship_info",
   "sils_event_data", "is_path_gen_fail_sils", "is_near_target_sils",
   "isils_event_data", "is_path_gen_fail_isils", "is_near_target_isils"]

/-- Outcome of a Python expression: a value, or a raised AttributeError
carrying the name of the missing attribute. -/
inductive PyResult (α : Type) where
  | ok : α → PyResult α
  | attributeError : String → PyResult α

/-- Python attribute access on an object modelled by the list of its
assigned attribute names together with their values. -/
def getattrOf (attrs : List String) (value : String → JValue) (name : String) :
    PyResult JValue :=
  if attrs.contains name then PyResult.ok (value name)
  else PyResult.attributeError name

/-- Number stored under one key of a position mapping, read by direct
indexing; reached only for truthy position values. -/
noncomputable def numField (pos : JValue) (key : String) : ℝ :=
  match pos with
  | JValue.obj fields =>
    match fields.lookup key with
    | some (JValue.num q) => (q : ℝ)
    | _ => 0
  | _ => 0

/-- Embedding of RouteComparer.compare_ownship (route_result_analyzer.py
lines 63-74): read self.sils_ship_position then self.isils_ship_position;
when both are truthy return the haversine distance of the two positions,
otherwise return None. The attribute reads are modelled explicitly because
whether they succeed is exactly what the claim is about. -/
noncomputable def compare_ownship (attrs : List String) (value : String → JValue) :
    PyResult (Option ℝ) :=
  match getattrOf attrs value ("sils_ship_position") with
  | PyResult.attributeError n => PyResult.attributeError n
  | PyResult.ok sp =>
    match getattrOf attrs value ("isils_ship_position") with
    | PyResult.attributeError n => PyResult.attributeError n
    | PyResult.ok ip =>
      if truthy sp && truthy ip then
        PyResult.ok (some (haversine
          (numField sp ("latitude")) (numField sp ("longitude"))
          (numField ip ("latitude")) (numField ip ("longitude"))))
      else PyResult.ok none

/-- C6 (code bug): on every instance built by the inherited constructor —
whatever the two input documents held — compare_ownship raises an
AttributeError for sils_ship_position instead of returning a distance or
None, because no constructor in the chain ever assigns the two ship
position attributes it reads. -/
theorem compare_ownship_always_raises (value : String → JValue) :
    compare_ownship routeExtractorAttrNames value =
      PyResult.attributeError ("sils_ship_position") := by
  rfl

/-- Kind of one file extracted from a marzip archive, decided by filename
suffix (timeseries.arrow, static.arrow, .json, anything else). -/
inductive MFileKind where
  | timeseries : MFileKind
  | static : MFileKind
  | json : MFileKind
  | other : MFileKind

/-- One extracted file: its suffix kind, its decoded rows (for the columnar
tables), its decoded document (for the JSON result) and whether reading or
decoding it raises inside its try block. -/
structure MFile where
  kind : MFileKind
  rows : List JValue
  doc : JValue
  decode_fails : Bool

/-- Environment of one extract_and_read_marzip call: whether the input
passes the zipfile check, whether extractall raises after creating the
scratch directory, the extracted files, and whether the final rmtree
fails. -/
structure MarzipEnv where
  is_zip : Bool
  extractall_raises : Bool
  files : List MFile
  rmtree_fails : Bool

/-- Data returned by a normal exit of extract_and_read_marzip. -/
structure MarzipData where
  timeseries_dataset : List JValue
  static_dataset : List JValue
  simulation_result : JValue

/-- How one call exits: normally, with the ValueError raised for a
non-archive input, or by propagating an exception raised during
extraction. -/
inductive MarzipExit where
  | ok : MarzipData → MarzipExit
  | valueError : MarzipExit
  | propagated : MarzipExit

/-- The per-file read loop of extract_and_read_marzip
(targets_from_marzip.py lines 148-167): each suffix branch extends the
matching dataset or overwrites simulation_result, and each branch is
wrapped in its own try/except, so a failing file is skipped and the loop
always completes. simulation_result starts as the empty mapping set by the
constructor. -/
def readExtractedFiles (files : List MFile) : MarzipData :=
  files.foldl
    (fun acc file =>
      match file.kind with
      | MFileKind.timeseries =>
        if file.decode_fails then acc
        else { acc with timeseries_dataset := acc.timeseries_dataset ++ file.rows }
      | MFileKind.static =>
        if file.decode_fails then acc
        else { acc with static_dataset := acc.static_dataset ++ file.rows }
      | MFileKind.json =>
        if file.decode_fails then acc
        else { acc with simulation_result := file.doc }
      | MFileKind.other => acc)
    ⟨[], [], JValue.obj []⟩

/-- Embedding of TargetsFromMarzip.extract_and_read_marzip
(targets_from_marzip.py lines 117-181), paired with whether the scratch
extraction directory still exists when the call exits. The rmtree call is
the last statement before the return and is not in a finally block, so it
runs only on the fall-through path, and its own failure is caught and
ignored; the ValueError for a non-archive input is raised before the
scratch directory is created. -/
def extract_and_read_marzip (env : MarzipEnv) : MarzipExit × Bool :=
  if env.is_zip then
    if env.extractall_raises then (MarzipExit.propagated, true)
    else
      let data := readExtractedFiles env.files
      if env.rmtree_fails then (MarzipExit.ok data, true)
      else (MarzipExit.ok data, false)
  else (MarzipExit.valueError, false)

/-- Environment where the zip check passes but extraction itself raises. -/
def envExtractRaises : MarzipEnv :=
  { is_zip := true, extractall_raises := true, files := [], rmtree_fails := false }

/-- C9 counterexample: when extractall raises after the scratch directory
was created, the exception propagates and the scratch directory still
exists at exit — cleanup is not guaranteed on every exit path. -/
theorem marzip_leak_on_extract_error :
    (extract_and_read_marzip envExtractRaises).1 = MarzipExit.propagated ∧
    (extract_and_read_marzip envExtractRaises).2 = true :=
  ⟨rfl, rfl⟩

/-- C9 (amended): the scratch directory is removed on the normal exit path,
including under any mix of per-file decode failures, which are caught
inside the loop; a non-archive input raises ValueError before the scratch
directory is created; but an error raised by the extraction step itself
propagates without cleanup, and a failing removal is swallowed. -/
theorem marzip_cleanup_on_normal_path (env : MarzipEnv) :
    (env.is_zip = false → extract_and_read_marzip env = (MarzipExit.valueError, false)) ∧
    (env.extractall_raises = false → env.rmtree_fails = false →
      (extract_and_read_marzip env).2 = false) ∧
    (env.is_zip = true → env.extractall_raises = false →
      (extract_and_read_marzip env).1 = MarzipExit.ok (readExtractedFiles env.files)) := by
  obtain ⟨z, e, fs, r⟩ := env
  refine ⟨fun hz => ?_, fun he hr => ?_, fun hz he => ?_⟩
  · subst hz
    rfl
  · subst he
    subst hr
    cases z <;> rfl
  · subst hz
    subst he
    cases r <;> rfl

/-- Environment whose only file is a JSON document that fails to decode. -/
def envDecodeFail : MarzipEnv :=
  { is_zip := true, extractall_raises := false,
    files := [{ kind := MFileKind.json, rows := [], doc := JValue.null, decode_fails := true }],
    rmtree_fails := false }

/-- Witness for the amended C9: a decode failure inside the loop still
reaches the cleanup, and the call returns normally. -/
theorem marzip_cleanup_witness :
    (extract_and_read_marzip envDecodeFail).2 = false ∧
    (extract_and_read_marzip envDecodeFail).1 =
      MarzipExit.ok (readExtractedFiles envDecodeFail.files) :=
  ⟨(marzip_cleanup_on_normal_path envDecodeFail).2.1 rfl rfl,
   (marzip_cleanup_on_normal_path envDecodeFail).2.2 rfl rfl⟩

end Sils
